import Mathlib

/-!
Shallow embedding of the LiberTEM SEQ dataset reader
(src/libertem/io/dataset/seq.py) and the frame summation job
(src/libertem/job/sum.py), together with theorems checking the
specification claims against the embedded code.

Conventions used throughout: Python byte strings are lists of naturals
(each entry below 256 in an actual file), Python integers are Nat/Int,
Python exceptions are Except errors, numpy arrays of rationals stand in
for floating point arrays where only the algebraic structure matters,
and numpy dtypes are an explicit enumeration where only the dtype flow
matters.
-/

deriving instance DecidableEq for Except

namespace LiberTEM

/-- Python exceptions that the embedded code fragments can raise and
that are distinguished by the control flow of seq.py: struct.error from
unpacking a too short buffer, UnicodeDecodeError from decoding a text
field, and ZeroDivisionError from dividing by a zero true_image_size. -/
inductive PyErr where
  | structError
  | unicodeDecodeError
  | zeroDivisionError
deriving DecidableEq

/-- Decoded SEQ header: one field per entry of HEADER_FIELDS in seq.py,
in the same order. DWORD and USHORT fields are Nat, LONG fields are Int,
the two text fields hold decoded UTF-16 code points, and the one double
field (suggested_frame_rate) keeps its raw bytes since its numeric value
is never used by the code under verification. -/
structure SeqHeader where
  magic : Nat
  name : List Nat
  version : Int
  header_size : Int
  description : List Nat
  width : Nat
  height : Nat
  bit_depth : Nat
  bit_depth_real : Nat
  image_size_bytes : Nat
  image_format : Nat
  allocated_frames : Nat
  origin : Nat
  true_image_size : Nat
  suggested_frame_rate : List Nat
  description_format : Int
  reference_frame : Nat
  fixed_size : Nat
  flags : Nat
  bayer_pattern : Int
  time_offset_us : Int
  extended_header_size : Int
  compression_format : Nat
  reference_time_s : Int
  reference_time_ms : Nat
  reference_time_us : Nat
deriving DecidableEq

/-- Message of the magic number check in SEQDataSet.check_valid. -/
def msgUnrecognized : String := "The format of this .seq file is unrecognized"

/-- Message of the compression check in SEQDataSet.check_valid. -/
def msgCompressed : String := "Only uncompressed images are supported in .seq files"

/-- Message of the image format check in SEQDataSet.check_valid. -/
def msgNonMonochrome : String := "Non-monochrome images are not supported"

/-- SEQDataSet.check_valid: raises DataSetException for a magic number
other than 0xFEED, then for a nonzero compression_format, then for an
image_format other than 100; passes otherwise. -/
def checkValid (h : SeqHeader) : Except String Unit :=
  if h.magic ≠ 0xFEED then .error msgUnrecognized
  else if h.compression_format ≠ 0 then .error msgCompressed
  else if h.image_format ≠ 100 then .error msgNonMonochrome
  else .ok ()

/-- SEQDataSet._get_image_offset: 8192 bytes for StreamPix version 5 and
above, 1024 bytes for older versions. -/
def getImageOffset (version : Int) : Nat :=
  if 5 ≤ version then 8192 else 1024

/-- Frame count computation shared by SEQDataSet._do_initialize and
SEQDataSet.detect_params: the Python expression
int((filesize - image_offset) / true_image_size) performs true division
and truncates toward zero, modelled as Int.tdiv on the exact quotient
(the floating point rounding of the Python quotient is not modelled). -/
def imageCount (filesize imageOffset trueImageSize : Int) : Int :=
  Int.tdiv (filesize - imageOffset) trueImageSize

/-- CorrectionSet as constructed by SEQDataSet.get_correction_data: an
optional dark frame array and an optional gain map array. The array
type is abstract; only presence or absence matters here. -/
structure CorrectionSet (α : Type) where
  dark : Option α
  gain : Option α

/-- SEQDataSet._maybe_load_mrc: returns none when the file at the path
does not exist, otherwise the squeezed array read by the external MRC
collaborator. The reading and squeezing (ncempy mrcReader followed by
np.squeeze) is an external collaborator out of core scope and is passed
in as the abstract function mrcReadSqueeze. -/
def maybeLoadMrc {α : Type} (pathExists : String → Bool)
    (mrcReadSqueeze : String → α) (path : String) : Option α :=
  if pathExists path then some (mrcReadSqueeze path) else none

/-- SEQDataSet._maybe_load_dark_gain: probes the two fixed sibling
suffixes of the dataset path. -/
def maybeLoadDarkGain {α : Type} (pathExists : String → Bool)
    (mrcReadSqueeze : String → α) (path : String) : Option α × Option α :=
  (maybeLoadMrc pathExists mrcReadSqueeze (path ++ ".dark.mrc"),
   maybeLoadMrc pathExists mrcReadSqueeze (path ++ ".gain.mrc"))

/-- SEQDataSet.get_correction_data: wraps the loaded dark and gain slots
in a CorrectionSet. -/
def getCorrectionData {α : Type} (pathExists : String → Bool)
    (mrcReadSqueeze : String → α) (path : String) : CorrectionSet α :=
  { dark := (maybeLoadDarkGain pathExists mrcReadSqueeze path).1,
    gain := (maybeLoadDarkGain pathExists mrcReadSqueeze path).2 }

/-- Numpy dtype kinds relevant to sum.py: unsigned integer, signed
integer, floating point. -/
inductive NpKind where
  | u
  | i
  | f
deriving DecidableEq

/-- Numpy dtypes that can appear as tile payloads in the embedded
fragments. -/
inductive NpDType where
  | uint8
  | uint16
  | uint32
  | uint64
  | int8
  | int16
  | int32
  | int64
  | float16
  | float32
  | float64
deriving DecidableEq

/-- Kind letter of a numpy dtype (the .kind attribute). -/
def NpDType.kind : NpDType → NpKind
  | .uint8 | .uint16 | .uint32 | .uint64 => .u
  | .int8 | .int16 | .int32 | .int64 => .i
  | .float16 | .float32 | .float64 => .f

/-- SumFramesTask.__call__ dtype step: data.astype(float32) when
data.dtype.kind is u or i, identity otherwise. -/
def castIfInt (d : NpDType) : NpDType :=
  if d.kind = NpKind.u ∨ d.kind = NpKind.i then NpDType.float32 else d

/-- Dtype of numpy ndarray.sum with default accumulator: floating
dtypes are preserved, unsigned integers widen to uint64 and signed
integers to int64. -/
def sumDtype (d : NpDType) : NpDType :=
  match d.kind with
  | .u => .uint64
  | .i => .int64
  | .f => d

/-- Rank of a numpy kind in the same_kind casting order u < i < f. -/
def kindRank : NpKind → Nat
  | .u => 0
  | .i => 1
  | .f => 2

/-- Numpy same_kind casting rule restricted to the u, i and f kinds: a
cast is allowed within a kind or towards a higher ranked kind. An
in-place += uses this rule to cast the right hand side to the dtype of
the target array. -/
def canCastSameKind (a b : NpDType) : Bool :=
  decide (kindRank a.kind ≤ kindRank b.kind)

/-- Dtype of the accumulator created by SumFramesTask.__call__:
np.zeros(shape, dtype=float32). -/
def sumFramesPartDtype : NpDType := NpDType.float32

/-- Dtype of one tile contribution in SumFramesTask.__call__: the
payload dtype after the integer cast and the navigation axis sum. -/
def sumFramesTileContribution (d : NpDType) : NpDType :=
  sumDtype (castIfInt d)

/-- Dtype result of an in-place += into target: numpy keeps the target
dtype and downcasts the source under the same_kind rule, raising (none)
when the cast is not allowed. -/
def inplaceAddDtype (target source : NpDType) : Option NpDType :=
  if canCastSameKind source target then some target else none

/-- Dtype of the accumulator inside the ResultTile returned by
SumFramesTask.__call__, as a function of the tile payload dtype. -/
def sumFramesResultDtype (d : NpDType) : Option NpDType :=
  inplaceAddDtype sumFramesPartDtype (sumFramesTileContribution d)

/-- Signal shaped accumulator array of SumFramesTask, with exact
rational entries standing in for float32 values. -/
def SigArray (h w : Nat) : Type := Fin h → Fin w → ℚ

/-- SumResultTile.reduce_into_result: result += self.data, an in-place
elementwise addition that returns the accumulator. -/
def reduceIntoResult {h w : Nat} (result data : SigArray h w) : SigArray h w :=
  fun i j => result i j + data i j

/-- Merging a list of ResultTile payloads into an accumulator, one
reduce_into_result call per tile in list order. -/
def mergeAll {h w : Nat} (init : SigArray h w) (tiles : List (SigArray h w)) :
    SigArray h w :=
  tiles.foldl reduceIntoResult init

/-- Per-partition start frame produced by the partition planner for
partition i of n over t total frames.

Modelled from the spec: BasePartition.make_slices lives in
libertem.io.dataset.base, which is not among the sources; per spec
section 4.4 the frames are split into partition_count contiguous,
near-equal-size chunks of t / n frames each, so chunk i starts at
i * (t / n). -/
def partStart (t n i : Nat) : Nat := i * (t / n)

/-- Per-partition stop frame (exclusive) produced by the partition
planner for partition i of n over t total frames.

Modelled from the spec: BasePartition.make_slices lives in
libertem.io.dataset.base, which is not among the sources; per spec
section 4.4 each chunk holds t / n frames and the last chunk absorbs
the remainder, so chunk i stops at (i + 1) * (t / n) except the last
chunk, which stops at t. -/
def partStop (t n i : Nat) : Nat :=
  if i = n - 1 then t else (i + 1) * (t / n)

/-- Partition plan: the list of (start, stop) frame ranges for n
partitions over t total frames.

Modelled from the spec: stands in for the slices that
BasePartition.make_slices (not among the sources) returns to
SEQDataSet.get_partitions. -/
def makeSlices (t n : Nat) : List (Nat × Nat) :=
  (List.range n).map fun i => (partStart t n i, partStop t n i)

/-- SEQDataSet.get_partitions: each slice (start, stop) of the plan
becomes a BasePartition with start_frame = start and
num_frames = stop - start. -/
def getPartitionsPlan (t n : Nat) : List (Nat × Nat) :=
  (makeSlices t n).map fun p => (p.1, p.2 - p.1)

/-- Errors SEQDataSet._do_initialize can raise after the header has
been decoded: DataSetException for an unsupported bit depth,
ZeroDivisionError for a zero true_image_size, and DataSetException for
a scan_size that does not match the number of frames. -/
inductive InitError where
  | unsupportedBitDepth
  | zeroDivision
  | scanSizeMismatch
deriving DecidableEq

/-- Result of a successful SEQDataSet._do_initialize: the dataset shape
(navigation shape followed by the signal shape), the number of signal
dimensions, the dtype item size, the derived footer size (true image
size minus frame payload size, possibly negative), the image offset,
the frame count and the timestamp resolution flag. -/
structure InitResult where
  shape : List Nat
  sigDims : Nat
  itemsize : Nat
  footerSize : Int
  imageOffset : Nat
  imageCountVal : Int
  timestampMicro : Bool
deriving DecidableEq

/-- Item size of np.dtype of the string uint<bit_depth>: defined for
bit depths 8, 16, 32 and 64; any other bit depth raises TypeError in
np.dtype, which _do_initialize turns into a DataSetException. -/
def dtypeItemsize (bitDepth : Nat) : Option Nat :=
  if bitDepth = 8 then some 1
  else if bitDepth = 16 then some 2
  else if bitDepth = 32 then some 4
  else if bitDepth = 64 then some 8
  else none

/-- SEQDataSet._do_initialize, after the header has been read: derives
the image offset and timestamp flag from the version, the dtype from
the bit depth, the footer size from the true image size and the frame
payload size, the frame count from the file size, checks the frame
count against the product of scan_size, and assembles the dataset
shape scan_size + (height, width) with two signal dimensions. The
correction loading step at the end of the Python function is modelled
separately by getCorrectionData and cannot fail. -/
def doInitialize (hdr : SeqHeader) (filesize : Nat) (scanSize : List Nat) :
    Except InitError InitResult :=
  let imageOffset := getImageOffset hdr.version
  match dtypeItemsize hdr.bit_depth with
  | none => .error .unsupportedBitDepth
  | some itemsize =>
    let frameSizeBytes := hdr.width * hdr.height * itemsize
    let footerSize : Int := (hdr.true_image_size : Int) - (frameSizeBytes : Int)
    if hdr.true_image_size = 0 then .error .zeroDivision
    else
      let count := imageCount (filesize : Int) (imageOffset : Int)
        (hdr.true_image_size : Int)
      if count ≠ (scanSize.prod : Int) then .error .scanSizeMismatch
      else .ok {
        shape := scanSize ++ [hdr.height, hdr.width],
        sigDims := 2,
        itemsize := itemsize,
        footerSize := footerSize,
        imageOffset := imageOffset,
        imageCountVal := count,
        timestampMicro := decide (5 ≤ hdr.version) }

/-- Least index at which a double null byte pair starts in a byte
string, as computed by the Python expression bytes.index of the two
byte substring in _decode_str. -/
def findDoubleNull : List Nat → Option Nat
  | a :: b :: rest =>
    if a = 0 ∧ b = 0 then some 0
    else (findDoubleNull (b :: rest)).map (· + 1)
  | _ => none

/-- Pair a byte list into little-endian 16 bit code units; an odd
trailing byte is the truncated data error of the Python UTF-16 codec. -/
def pairLE : List Nat → Except Unit (List Nat)
  | [] => .ok []
  | [_] => .error ()
  | a :: b :: rest => do
    let us ← pairLE rest
    .ok ((a + 256 * b) :: us)

/-- Pair a byte list into big-endian 16 bit code units; an odd trailing
byte is the truncated data error of the Python UTF-16 codec. -/
def pairBE : List Nat → Except Unit (List Nat)
  | [] => .ok []
  | [_] => .error ()
  | a :: b :: rest => do
    let us ← pairBE rest
    .ok ((256 * a + b) :: us)

/-- Combine UTF-16 code units into code points: a high surrogate must
be followed by a low surrogate, and an unpaired surrogate of either
kind is a decode error. -/
def combineSurrogates : List Nat → Except Unit (List Nat)
  | [] => .ok []
  | u :: rest =>
    if 0xD800 ≤ u ∧ u ≤ 0xDBFF then
      match rest with
      | [] => .error ()
      | v :: rest2 =>
        if 0xDC00 ≤ v ∧ v ≤ 0xDFFF then do
          let cs ← combineSurrogates rest2
          .ok ((0x10000 + (u - 0xD800) * 0x400 + (v - 0xDC00)) :: cs)
        else .error ()
    else if 0xDC00 ≤ u ∧ u ≤ 0xDFFF then .error ()
    else do
      let cs ← combineSurrogates rest
      .ok (u :: cs)

/-- Python bytes.decode("utf16"): strip and obey a byte order mark when
present, otherwise assume little-endian (the native order of the
platforms the code targets), then pair bytes into code units and
combine surrogate pairs. -/
def utf16Decode (bytes : List Nat) : Except Unit (List Nat) :=
  match bytes with
  | 255 :: 254 :: rest => do combineSurrogates (← pairLE rest)
  | 254 :: 255 :: rest => do combineSurrogates (← pairBE rest)
  | rest => do combineSurrogates (← pairLE rest)

/-- The _decode_str function of seq.py: keep everything up to and
including the first byte of the first double null pair when one is
present, otherwise the whole fixed-length field, then decode the kept
bytes as UTF-16. -/
def decodeStr (strIn : List Nat) : Except Unit (List Nat) :=
  let endPos :=
    match findDoubleNull strIn with
    | some i => i + 1
    | none => strIn.length
  utf16Decode (strIn.take endPos)

/-- Sum of the widths of all entries of HEADER_FIELDS in seq.py:
4 + 24 + 4 + 4 + 512 + nine 4 byte words + 8 + nine 4 byte words
+ 2 + 2 = 632. -/
def HEADER_SIZE : Nat := 632

/-- Fixed-size field read of struct.unpack: size bytes starting at pos,
struct.error when the buffer holds fewer than size bytes there. -/
def readBytesAt (bytes : List Nat) (pos size : Nat) :
    Except PyErr (List Nat) :=
  if pos + size ≤ bytes.length then .ok ((bytes.drop pos).take size)
  else .error .structError

/-- Little-endian value of a byte list. -/
def leNat : List Nat → Nat
  | [] => 0
  | b :: rest => b + 256 * leNat rest

/-- Unsigned little-endian field read (the struct formats L and H). -/
def readUAt (bytes : List Nat) (pos size : Nat) : Except PyErr Nat := do
  let bs ← readBytesAt bytes pos size
  .ok (leNat bs)

/-- Reinterpret an unsigned value of the given byte width as a
two's-complement signed value. -/
def toSigned (n size : Nat) : Int :=
  if n < 2 ^ (8 * size - 1) then (n : Int) else (n : Int) - 2 ^ (8 * size)

/-- Signed little-endian field read (the struct format l). -/
def readIAt (bytes : List Nat) (pos size : Nat) : Except PyErr Int := do
  let n ← readUAt bytes pos size
  .ok (toSigned n size)

/-- Text field read: fixed-length raw bytes decoded by _decode_str,
with a decode failure surfacing as UnicodeDecodeError. -/
def readStrAt (bytes : List Nat) (pos size : Nat) :
    Except PyErr (List Nat) := do
  let raw ← readBytesAt bytes pos size
  match decodeStr raw with
  | .ok s => .ok s
  | .error _ => .error .unicodeDecodeError

/-- The _unpack_header function of seq.py applied to HEADER_FIELDS:
fields are decoded in list order at the fixed cumulative offsets, the
name and description fields additionally pass through _decode_str. A
buffer too short for a field raises struct.error at that field, so an
undecodable name is reported before a missing later field, exactly as
in the sequential Python loop. -/
def unpackHeader (b : List Nat) : Except PyErr SeqHeader := do
  let magic ← readUAt b 0 4
  let name ← readStrAt b 4 24
  let version ← readIAt b 28 4
  let header_size ← readIAt b 32 4
  let description ← readStrAt b 36 512
  let width ← readUAt b 548 4
  let height ← readUAt b 552 4
  let bit_depth ← readUAt b 556 4
  let bit_depth_real ← readUAt b 560 4
  let image_size_bytes ← readUAt b 564 4
  let image_format ← readUAt b 568 4
  let allocated_frames ← readUAt b 572 4
  let origin ← readUAt b 576 4
  let true_image_size ← readUAt b 580 4
  let suggested_frame_rate ← readBytesAt b 584 8
  let description_format ← readIAt b 592 4
  let reference_frame ← readUAt b 596 4
  let fixed_size ← readUAt b 600 4
  let flags ← readUAt b 604 4
  let bayer_pattern ← readIAt b 608 4
  let time_offset_us ← readIAt b 612 4
  let extended_header_size ← readIAt b 616 4
  let compression_format ← readUAt b 620 4
  let reference_time_s ← readIAt b 624 4
  let reference_time_ms ← readUAt b 628 2
  let reference_time_us ← readUAt b 630 2
  return {
    magic, name, version, header_size, description, width, height,
    bit_depth, bit_depth_real, image_size_bytes, image_format,
    allocated_frames, origin, true_image_size, suggested_frame_rate,
    description_format, reference_frame, fixed_size, flags,
    bayer_pattern, time_offset_us, extended_header_size,
    compression_format, reference_time_s, reference_time_ms,
    reference_time_us }

/-- Outcome of SEQDataSet.detect_params when it returns: either the
Python value False (not this format) or the suggested parameter
dictionary holding the path and the frame count placeholder for
scan_size (the Python code stringifies the count; the string
conversion is omitted). -/
inductive DetectResult where
  | noMatch
  | params (path : String) (scanSize : Int)
deriving DecidableEq

/-- SEQDataSet.detect_params over a file modelled as an optional byte
list (none stands for an OSError when opening or stating the file):
reads and unpacks the first HEADER_SIZE bytes, returns noMatch on a
caught OSError or UnicodeDecodeError or on a magic number other than
0xFEED, and otherwise suggests the path together with the inferred
frame count. A struct.error from a short header and a
ZeroDivisionError from a zero true_image_size are not caught and
propagate. -/
def detectParams (path : String) (file : Option (List Nat)) :
    Except PyErr DetectResult :=
  match file with
  | none => .ok .noMatch
  | some bytes =>
    match unpackHeader (bytes.take HEADER_SIZE) with
    | .error .unicodeDecodeError => .ok .noMatch
    | .error e => .error e
    | .ok h =>
      if h.magic ≠ 0xFEED then .ok .noMatch
      else if h.true_image_size = 0 then .error .zeroDivisionError
      else .ok (.params path (imageCount (bytes.length : Int)
        ((getImageOffset h.version : Nat) : Int) (h.true_image_size : Int)))

theorem reduceIntoResult_comm {h w : Nat} (a b c : SigArray h w) :
    reduceIntoResult (reduceIntoResult a b) c
      = reduceIntoResult (reduceIntoResult a c) b := by
  funext i j
  simp only [reduceIntoResult]
  ring

/-- C8: check_valid tests magic = 0xFEED, compression_format = 0 and
image_format = 100; each violation alone yields its own distinct
user-legible error, and a header passing all three checks validates
without error. -/
theorem checkValid_spec (h : SeqHeader) :
    (checkValid h = .ok () ↔
      (h.magic = 0xFEED ∧ h.compression_format = 0 ∧ h.image_format = 100))
    ∧ (checkValid h = .error msgUnrecognized ↔ h.magic ≠ 0xFEED)
    ∧ (checkValid h = .error msgCompressed ↔
      (h.magic = 0xFEED ∧ h.compression_format ≠ 0))
    ∧ (checkValid h = .error msgNonMonochrome ↔
      (h.magic = 0xFEED ∧ h.compression_format = 0 ∧ h.image_format ≠ 100))
    ∧ msgUnrecognized ≠ msgCompressed
    ∧ msgUnrecognized ≠ msgNonMonochrome
    ∧ msgCompressed ≠ msgNonMonochrome := by
  have d12 : msgUnrecognized ≠ msgCompressed := by decide
  have d13 : msgUnrecognized ≠ msgNonMonochrome := by decide
  have d23 : msgCompressed ≠ msgNonMonochrome := by decide
  have d21 : msgCompressed ≠ msgUnrecognized := d12.symm
  have d31 : msgNonMonochrome ≠ msgUnrecognized := d13.symm
  have d32 : msgNonMonochrome ≠ msgCompressed := d23.symm
  unfold checkValid
  refine ⟨?_, ?_, ?_, ?_, d12, d13, d23⟩ <;>
    split_ifs with h1 h2 h3 <;> simp_all

/-- C9: when neither the .dark.mrc nor the .gain.mrc sibling file
exists, get_correction_data returns a CorrectionSet with both slots
absent and no error is raised (the embedded loader is total). -/
theorem getCorrectionData_absent {α : Type} (pathExists : String → Bool)
    (mrcReadSqueeze : String → α) (path : String)
    (hdark : pathExists (path ++ ".dark.mrc") = false)
    (hgain : pathExists (path ++ ".gain.mrc") = false) :
    getCorrectionData pathExists mrcReadSqueeze path
      = { dark := none, gain := none } := by
  simp [getCorrectionData, maybeLoadDarkGain, maybeLoadMrc, hdark, hgain]

theorem getCorrectionData_absent_witness :
    getCorrectionData (fun _ => false) (fun _ => (0 : Nat)) "scan.seq"
      = { dark := none, gain := none } :=
  getCorrectionData_absent (fun _ => false) (fun _ => (0 : Nat)) "scan.seq"
    rfl rfl

/-- C10: for every tile payload dtype the in-place addition into the
float32 accumulator is a valid same_kind cast and the ResultTile
accumulator dtype is float32: integer payloads are cast up to float32
before summation and float64 payloads survive the sum at full
precision, to be downcast only by the in-place add. -/
theorem sumFrames_result_dtype_float32 :
    (∀ d : NpDType, sumFramesResultDtype d = some NpDType.float32)
    ∧ castIfInt NpDType.uint8 = NpDType.float32
    ∧ sumFramesTileContribution NpDType.float64 = NpDType.float64 := by
  refine ⟨fun d => ?_, by decide, by decide⟩
  cases d <;> decide

/-- C4: merging the ResultTiles of all partitions into the final
accumulator with reduce_into_result gives the same final accumulator
for every permutation of the merge order (exact rational arithmetic
stands in for float32, so equality is exact rather than up to
rounding tolerance). -/
theorem mergeAll_perm_invariant {h w : Nat} (init : SigArray h w)
    (ts1 ts2 : List (SigArray h w)) (hperm : List.Perm ts1 ts2) :
    mergeAll init ts1 = mergeAll init ts2 := by
  induction hperm generalizing init with
  | nil => rfl
  | cons x p ih => exact ih (reduceIntoResult init x)
  | swap x y l =>
    show mergeAll (reduceIntoResult (reduceIntoResult init y) x) l
      = mergeAll (reduceIntoResult (reduceIntoResult init x) y) l
    rw [reduceIntoResult_comm]
  | trans p1 p2 ih1 ih2 => exact (ih1 init).trans (ih2 init)

def tileA : SigArray 1 1 := fun _ _ => 1

def tileB : SigArray 1 1 := fun _ _ => 2

def zeroTile : SigArray 1 1 := fun _ _ => 0

theorem mergeAll_perm_invariant_witness :
    mergeAll zeroTile [tileA, tileB] = mergeAll zeroTile [tileB, tileA] :=
  mergeAll_perm_invariant zeroTile [tileA, tileB] [tileB, tileA]
    (List.Perm.swap tileB tileA [])

/-- C2 counterexample: for filesize 1000, image offset 8192 (a version
5 header in a file of 1000 bytes, enough for the 632 byte header) and
true_image_size 512, the code computes int of the quotient, which
truncates toward zero and yields -14, while the floor is -15; the
claimed lower bound frame_count * true_image_size + image_offset ≤
filesize also fails there. -/
theorem imageCount_not_floor :
    imageCount 1000 8192 512 = -14
    ∧ Int.fdiv ((1000 : Int) - 8192) 512 = -15
    ∧ ¬(imageCount 1000 8192 512 * 512 + 8192 ≤ (1000 : Int)) := by
  decide

/-- C2 amended: whenever the image offset does not exceed the file
size and true_image_size is positive, the computed frame count equals
the floor of (filesize - image_offset) / true_image_size and satisfies
frame_count * true_image_size + image_offset ≤ filesize <
frame_count * true_image_size + image_offset + true_image_size. -/
theorem imageCount_floor (filesize imageOffset trueImageSize : Int)
    (hoff : imageOffset ≤ filesize) (hpos : 0 < trueImageSize) :
    imageCount filesize imageOffset trueImageSize
      = Int.fdiv (filesize - imageOffset) trueImageSize
    ∧ imageCount filesize imageOffset trueImageSize * trueImageSize
        + imageOffset ≤ filesize
    ∧ filesize < imageCount filesize imageOffset trueImageSize
        * trueImageSize + imageOffset + trueImageSize := by
  have ha : 0 ≤ filesize - imageOffset := by omega
  have hb : 0 ≤ trueImageSize := le_of_lt hpos
  have h1 : imageCount filesize imageOffset trueImageSize
      = (filesize - imageOffset) / trueImageSize :=
    Int.tdiv_eq_ediv ha hb
  have h2 : Int.fdiv (filesize - imageOffset) trueImageSize
      = (filesize - imageOffset) / trueImageSize :=
    Int.fdiv_eq_ediv _ hb
  have hmod := Int.ediv_add_emod (filesize - imageOffset) trueImageSize
  have hmn : 0 ≤ (filesize - imageOffset) % trueImageSize :=
    Int.emod_nonneg _ (ne_of_gt hpos)
  have hml : (filesize - imageOffset) % trueImageSize < trueImageSize :=
    Int.emod_lt_of_pos _ hpos
  refine ⟨h1.trans h2.symm, ?_, ?_⟩ <;> rw [h1, mul_comm] <;>
    linarith [hmod, hmn, hml]

theorem imageCount_floor_witness :
    imageCount 5000 1024 512 = Int.fdiv ((5000 : Int) - 1024) 512
    ∧ imageCount 5000 1024 512 * 512 + 1024 ≤ (5000 : Int)
    ∧ (5000 : Int) < imageCount 5000 1024 512 * 512 + 1024 + 512 :=
  imageCount_floor 5000 1024 512 (by decide) (by decide)

theorem doInitialize_eq (hdr : SeqHeader) (filesize : Nat)
    (scanSize : List Nat) (n : Nat)
    (hbd : dtypeItemsize hdr.bit_depth = some n)
    (ht : hdr.true_image_size ≠ 0) :
    doInitialize hdr filesize scanSize =
      if imageCount (filesize : Int) (getImageOffset hdr.version : Int)
          (hdr.true_image_size : Int) ≠ (scanSize.prod : Int)
      then .error .scanSizeMismatch
      else .ok {
        shape := scanSize ++ [hdr.height, hdr.width],
        sigDims := 2,
        itemsize := n,
        footerSize := (hdr.true_image_size : Int)
          - ((hdr.width * hdr.height * n : Nat) : Int),
        imageOffset := getImageOffset hdr.version,
        imageCountVal := imageCount (filesize : Int)
          (getImageOffset hdr.version : Int) (hdr.true_image_size : Int),
        timestampMicro := decide (5 ≤ hdr.version) } := by
  unfold doInitialize
  rw [hbd]
  simp [ht]

/-- C3: given a supported bit depth and a nonzero true_image_size,
_do_initialize raises the scan size mismatch error exactly when the
file-derived frame count differs from the product of scan_size, and
when they agree it succeeds with dataset shape scan_size followed by
(height, width) and two signal dimensions. -/
theorem doInitialize_scan_size_check (hdr : SeqHeader) (filesize : Nat)
    (scanSize : List Nat) (n : Nat)
    (hbd : dtypeItemsize hdr.bit_depth = some n)
    (ht : hdr.true_image_size ≠ 0) :
    (doInitialize hdr filesize scanSize = .error .scanSizeMismatch ↔
      imageCount (filesize : Int) (getImageOffset hdr.version : Int)
        (hdr.true_image_size : Int) ≠ (scanSize.prod : Int))
    ∧ (imageCount (filesize : Int) (getImageOffset hdr.version : Int)
        (hdr.true_image_size : Int) = (scanSize.prod : Int) →
      doInitialize hdr filesize scanSize = .ok {
        shape := scanSize ++ [hdr.height, hdr.width],
        sigDims := 2,
        itemsize := n,
        footerSize := (hdr.true_image_size : Int)
          - ((hdr.width * hdr.height * n : Nat) : Int),
        imageOffset := getImageOffset hdr.version,
        imageCountVal := (scanSize.prod : Int),
        timestampMicro := decide (5 ≤ hdr.version) }) := by
  rw [doInitialize_eq hdr filesize scanSize n hbd ht]
  by_cases hc : imageCount (filesize : Int) (getImageOffset hdr.version : Int)
      (hdr.true_image_size : Int) = (scanSize.prod : Int)
  · rw [if_neg (not_not_intro hc)]
    refine ⟨iff_of_false (by simp) (not_not_intro hc), fun _ => ?_⟩
    rw [hc]
  · rw [if_pos hc]
    exact ⟨iff_of_true rfl hc, fun h => absurd h hc⟩

/-- Fixture header with every field zero; concrete test headers
override individual fields. -/
def baseHeader : SeqHeader := {
  magic := 0, name := [], version := 0, header_size := 0,
  description := [], width := 0, height := 0, bit_depth := 0,
  bit_depth_real := 0, image_size_bytes := 0, image_format := 0,
  allocated_frames := 0, origin := 0, true_image_size := 0,
  suggested_frame_rate := [], description_format := 0,
  reference_frame := 0, fixed_size := 0, flags := 0,
  bayer_pattern := 0, time_offset_us := 0, extended_header_size := 0,
  compression_format := 0, reference_time_s := 0,
  reference_time_ms := 0, reference_time_us := 0 }

/-- Fixture header of the spec scenario: 4 by 4 frames of uint8 with
version 5 and no footer, so true_image_size is 16. -/
def hdrOk : SeqHeader := { baseHeader with
  version := 5, width := 4, height := 4, bit_depth := 8,
  true_image_size := 16 }

theorem doInitialize_scan_size_check_witness :
    doInitialize hdrOk 8352 [2, 5] = .ok {
      shape := [2, 5, 4, 4], sigDims := 2, itemsize := 1,
      footerSize := 0, imageOffset := 8192, imageCountVal := 10,
      timestampMicro := true } :=
  ((doInitialize_scan_size_check hdrOk 8352 [2, 5] 1 (by decide)
    (by decide)).2 (by decide)).trans (by decide)

/-- Fixture header whose geometry is inconsistent: 4 by 4 uint8 frames
need 16 payload bytes but true_image_size is 8, so the derived footer
size is -8. -/
def hdrNeg : SeqHeader := { baseHeader with
  width := 4, height := 4, bit_depth := 8, true_image_size := 8 }

/-- C5 counterexample: a header with footer size
true_image_size - width * height * itemsize = 8 - 16 = -8 initializes
successfully (file of 1104 bytes, scan size (2, 5), frame count 10):
_do_initialize contains no footer sign check and raises no error. -/
theorem negative_footer_accepted :
    doInitialize hdrNeg 1104 [2, 5] = .ok {
      shape := [2, 5, 4, 4], sigDims := 2, itemsize := 1,
      footerSize := -8, imageOffset := 1024, imageCountVal := 10,
      timestampMicro := false }
    ∧ (-8 : Int) < 0 := by
  exact ⟨by decide, by decide⟩

/-- C5 amended: geometry derivation stores
footer_size = true_image_size - width * height * itemsize without any
sign check; when the footer size is negative and the remaining checks
pass, initialization still succeeds. -/
theorem doInitialize_no_footer_check (hdr : SeqHeader) (filesize : Nat)
    (scanSize : List Nat) (n : Nat)
    (hbd : dtypeItemsize hdr.bit_depth = some n)
    (ht : hdr.true_image_size ≠ 0)
    (hneg : (hdr.true_image_size : Int)
      - ((hdr.width * hdr.height * n : Nat) : Int) < 0)
    (hcount : imageCount (filesize : Int) (getImageOffset hdr.version : Int)
      (hdr.true_image_size : Int) = (scanSize.prod : Int)) :
    doInitialize hdr filesize scanSize = .ok {
      shape := scanSize ++ [hdr.height, hdr.width],
      sigDims := 2,
      itemsize := n,
      footerSize := (hdr.true_image_size : Int)
        - ((hdr.width * hdr.height * n : Nat) : Int),
      imageOffset := getImageOffset hdr.version,
      imageCountVal := (scanSize.prod : Int),
      timestampMicro := decide (5 ≤ hdr.version) }
    ∧ (hdr.true_image_size : Int)
      - ((hdr.width * hdr.height * n : Nat) : Int) < 0 := by
  refine ⟨?_, hneg⟩
  rw [doInitialize_eq hdr filesize scanSize n hbd ht, hcount]
  simp

theorem doInitialize_no_footer_check_witness :
    doInitialize hdrNeg 1104 [10] = .ok {
      shape := [10, 4, 4], sigDims := 2, itemsize := 1,
      footerSize := -8, imageOffset := 1024, imageCountVal := 10,
      timestampMicro := false }
    ∧ (-8 : Int) < 0 := by
  have h := doInitialize_no_footer_check hdrNeg 1104 [10] 1 (by decide)
    (by decide) (by decide) (by decide)
  exact ⟨h.1.trans (by decide), by decide⟩

/-- C1: for every total frame count t and every partition count n of
at least 1, the partition plan has n entries, starts at frame 0, ends
at frame t, has contiguous chunks (each stop is the next start, each
start at most its stop), chunk sizes summing to t, every frame of an
earlier chunk below every frame of a later chunk (so chunks are
ordered and non-overlapping), and every frame of [0, t) inside some
chunk; this covers the degenerate case t < n, where some chunks are
empty. -/
theorem makeSlices_partition_plan (t n : Nat) (hn : 1 ≤ n) :
    (makeSlices t n).length = n
    ∧ (∀ i, i < n →
        (makeSlices t n)[i]? = some (partStart t n i, partStop t n i))
    ∧ partStart t n 0 = 0
    ∧ partStop t n (n - 1) = t
    ∧ (∀ i, i + 1 < n → partStop t n i = partStart t n (i + 1))
    ∧ (∀ i, i < n → partStart t n i ≤ partStop t n i)
    ∧ (∑ i ∈ Finset.range n, (partStop t n i - partStart t n i)) = t
    ∧ (∀ i j k k2, i < j → j < n → partStart t n i ≤ k →
        k < partStop t n i → partStart t n j ≤ k2 →
        k2 < partStop t n j → k < k2)
    ∧ (∀ k, k < t → ∃ i, i < n ∧ partStart t n i ≤ k ∧ k < partStop t n i) := by
  have hq : ∀ m, m ≤ n → m * (t / n) ≤ t := by
    intro m hm
    calc m * (t / n) ≤ n * (t / n) := Nat.mul_le_mul_right _ hm
    _ = t / n * n := Nat.mul_comm n (t / n)
    _ ≤ t := Nat.div_mul_le_self t n
  refine ⟨?_, ?_, ?_, ?_, ?_, ?_, ?_, ?_, ?_⟩
  · simp [makeSlices]
  · intro i hi
    simp [makeSlices, List.getElem?_map, List.getElem?_range, hi]
  · simp [partStart]
  · simp [partStop]
  · intro i hi
    have hne : i ≠ n - 1 := by omega
    simp [partStop, partStart, hne]
  · intro i hi
    by_cases hlast : i = n - 1
    · subst hlast
      simp only [partStart, partStop, if_pos rfl]
      exact hq (n - 1) (by omega)
    · simp only [partStart, partStop, if_neg hlast]
      exact Nat.mul_le_mul_right _ (Nat.le_succ i)
  · obtain ⟨m, rfl⟩ : ∃ m, n = m + 1 := ⟨n - 1, by omega⟩
    rw [Finset.sum_range_succ]
    have hterm : ∀ i ∈ Finset.range m,
        partStop t (m + 1) i - partStart t (m + 1) i = t / (m + 1) := by
      intro i hi
      rw [Finset.mem_range] at hi
      have hne : i ≠ m + 1 - 1 := by omega
      simp only [partStop, partStart, if_neg hne]
      rw [Nat.succ_mul]
      exact Nat.add_sub_cancel_left (i * (t / (m + 1))) (t / (m + 1))
    rw [Finset.sum_congr rfl hterm, Finset.sum_const, Finset.card_range,
      smul_eq_mul]
    have hlast : partStop t (m + 1) m = t := by
      simp [partStop]
    have hstart : partStart t (m + 1) m = m * (t / (m + 1)) := rfl
    rw [hlast, hstart]
    exact Nat.add_sub_cancel' (hq m (by omega))
  · intro i j k k2 hij hjn hk1 hk2 hk3 hk4
    have hine : i ≠ n - 1 := by omega
    have hstop : partStop t n i = (i + 1) * (t / n) := by
      simp [partStop, hine]
    have hle : (i + 1) * (t / n) ≤ j * (t / n) :=
      Nat.mul_le_mul_right _ (by omega)
    have : k < partStart t n j := by
      rw [hstop] at hk2
      exact Nat.lt_of_lt_of_le hk2 hle
    exact Nat.lt_of_lt_of_le this (Nat.le_trans hk3 (Nat.le_refl k2))
  · intro k hk
    by_cases hq0 : t / n = 0
    · refine ⟨n - 1, by omega, ?_, ?_⟩
      · simp [partStart, hq0]
      · simp [partStop]
        exact hk
    · have hqpos : 0 < t / n := Nat.pos_of_ne_zero hq0
      by_cases hbig : k < (n - 1) * (t / n)
      · refine ⟨k / (t / n), ?_, ?_, ?_⟩
        · have := (Nat.div_lt_iff_lt_mul hqpos).mpr hbig
          omega
        · simpa [partStart] using Nat.div_mul_le_self k (t / n)
        · have hlt : k / (t / n) < n - 1 :=
            (Nat.div_lt_iff_lt_mul hqpos).mpr hbig
          have hne : k / (t / n) ≠ n - 1 := by omega
          simp only [partStop, if_neg hne]
          have h1 := Nat.div_add_mod k (t / n)
          have h2 : k % (t / n) < t / n := Nat.mod_lt k hqpos
          calc k = t / n * (k / (t / n)) + k % (t / n) := h1.symm
          _ < t / n * (k / (t / n)) + t / n := Nat.add_lt_add_left h2 _
          _ = (k / (t / n) + 1) * (t / n) := by ring
      · refine ⟨n - 1, by omega, ?_, ?_⟩
        · simpa [partStart] using Nat.le_of_not_lt hbig
        · simp [partStop]
          exact hk

theorem makeSlices_partition_plan_witness :
    (makeSlices 10 3).length = 3
    ∧ (∑ i ∈ Finset.range 3, (partStop 10 3 i - partStart 10 3 i)) = 10 := by
  have h := makeSlices_partition_plan 10 3 (by decide)
  exact ⟨h.1, h.2.2.2.2.2.2.1⟩

theorem findDoubleNull_some_spec (s : List Nat) (i : Nat)
    (h : findDoubleNull s = some i) :
    (s.drop i).take 2 = [0, 0] ∧ ∀ j, j < i → (s.drop j).take 2 ≠ [0, 0] := by
  induction s generalizing i with
  | nil => simp [findDoubleNull] at h
  | cons a tail ih =>
    cases tail with
    | nil => simp [findDoubleNull] at h
    | cons b rest =>
      by_cases hab : a = 0 ∧ b = 0
      · rw [findDoubleNull, if_pos hab] at h
        obtain rfl : (0 : Nat) = i := Option.some.injEq _ _ ▸ h
        refine ⟨by simp [hab.1, hab.2], fun j hj => absurd hj (by omega)⟩
      · rw [findDoubleNull, if_neg hab] at h
        cases hfd : findDoubleNull (b :: rest) with
        | none => rw [hfd] at h; simp at h
        | some i0 =>
          rw [hfd] at h
          simp at h
          subst h
          obtain ⟨h1, h2⟩ := ih i0 hfd
          refine ⟨by simpa using h1, ?_⟩
          intro j hj
          cases j with
          | zero =>
            simp only [List.drop_zero, List.take_succ_cons]
            intro hcon
            exact hab ⟨by injection hcon, by
              injection hcon with h3 h4; injection h4⟩
          | succ j0 =>
            simpa using h2 j0 (by omega)

theorem findDoubleNull_none_spec (s : List Nat)
    (h : findDoubleNull s = none) :
    ∀ j, (s.drop j).take 2 ≠ [0, 0] := by
  induction s with
  | nil => intro j; simp
  | cons a tail ih =>
    cases tail with
    | nil =>
      intro j
      cases j with
      | zero => simp
      | succ j0 => simp
    | cons b rest =>
      by_cases hab : a = 0 ∧ b = 0
      · rw [findDoubleNull, if_pos hab] at h
        exact absurd h (by simp)
      · rw [findDoubleNull, if_neg hab] at h
        have hnone : findDoubleNull (b :: rest) = none := by
          cases hfd : findDoubleNull (b :: rest) with
          | none => rfl
          | some i0 => rw [hfd] at h; simp at h
        intro j
        cases j with
        | zero =>
          simp only [List.drop_zero, List.take_succ_cons]
          intro hcon
          exact hab ⟨by injection hcon, by
            injection hcon with h3 h4; injection h4⟩
        | succ j0 =>
          simpa using ih hnone j0

/-- C7: _decode_str truncates a fixed-length text field at the first
double null byte pair when one is present (keeping the bytes up to and
including the first byte of that pair), uses the whole field
otherwise, and decodes the kept bytes as UTF-16; an undecodable field
(for example an all-zero field, whose kept single byte is truncated
UTF-16) yields an error value rather than a crash, here shown on the
24 byte empty name field. -/
theorem decodeStr_spec (s : List Nat) :
    (∀ i, findDoubleNull s = some i →
      ((s.drop i).take 2 = [0, 0]
        ∧ (∀ j, j < i → (s.drop j).take 2 ≠ [0, 0])
        ∧ decodeStr s = utf16Decode (s.take (i + 1))))
    ∧ (findDoubleNull s = none →
      ((∀ j, (s.drop j).take 2 ≠ [0, 0]) ∧ decodeStr s = utf16Decode s))
    ∧ decodeStr (List.replicate 24 0) = .error () := by
  refine ⟨?_, ?_, by decide⟩
  · intro i h
    obtain ⟨h1, h2⟩ := findDoubleNull_some_spec s i h
    refine ⟨h1, h2, ?_⟩
    simp only [decodeStr, h]
  · intro h
    refine ⟨findDoubleNull_none_spec s h, ?_⟩
    simp only [decodeStr, h, List.take_length]

/-- Fixture text field: UTF-16 little-endian bytes of a two character
name followed by a double null terminator. -/
def nameField : List Nat := [97, 0, 98, 0, 0, 0]

theorem decodeStr_spec_witness :
    (nameField.drop 3).take 2 = [0, 0]
    ∧ (∀ j, j < 3 → (nameField.drop j).take 2 ≠ [0, 0])
    ∧ decodeStr nameField = utf16Decode (nameField.take (3 + 1)) :=
  (decodeStr_spec nameField).1 3 (by decide)

/-- C6 counterexample: detect_params on an empty (zero byte) file does
not return False: unpacking the header raises struct.error, which the
except clause (OSError, UnicodeDecodeError) does not catch, so
detection raises instead of degrading to a boolean. -/
theorem detectParams_raises_on_short_file :
    detectParams "scan.seq" (some []) = .error PyErr.structError
    ∧ detectParams "scan.seq" (some []) ≠ .ok DetectResult.noMatch := by
  exact ⟨by decide, by decide⟩

/-- C6 amended: detect_params returns False on an I/O failure opening
or stating the file (OSError), on a UTF-16 text field decode failure
(UnicodeDecodeError) and on a magic number other than 0xFEED, and
otherwise returns the path with the inferred frame count as scan_size
placeholder; however a header buffer too short for all fields raises
an uncaught struct.error and a zero true_image_size raises an
uncaught ZeroDivisionError. -/
theorem detectParams_cases (path : String) (bytes : List Nat) :
    detectParams path none = .ok .noMatch
    ∧ (unpackHeader (bytes.take HEADER_SIZE) = .error .unicodeDecodeError →
        detectParams path (some bytes) = .ok .noMatch)
    ∧ (unpackHeader (bytes.take HEADER_SIZE) = .error .structError →
        detectParams path (some bytes) = .error .structError)
    ∧ (∀ h, unpackHeader (bytes.take HEADER_SIZE) = .ok h →
        h.magic ≠ 0xFEED → detectParams path (some bytes) = .ok .noMatch)
    ∧ (∀ h, unpackHeader (bytes.take HEADER_SIZE) = .ok h →
        h.magic = 0xFEED → h.true_image_size = 0 →
        detectParams path (some bytes) = .error .zeroDivisionError)
    ∧ (∀ h, unpackHeader (bytes.take HEADER_SIZE) = .ok h →
        h.magic = 0xFEED → h.true_image_size ≠ 0 →
        detectParams path (some bytes) = .ok (.params path
          (imageCount (bytes.length : Int) (getImageOffset h.version : Int)
            (h.true_image_size : Int)))) := by
  refine ⟨rfl, ?_, ?_, ?_, ?_, ?_⟩
  · intro he
    simp [detectParams, he]
  · intro he
    simp [detectParams, he]
  · intro h he hm
    simp [detectParams, he, hm]
  · intro h he hm ht
    simp [detectParams, he, hm, ht]
  · intro h he hm ht
    simp [detectParams, he, hm, ht]

theorem detectParams_cases_witness :
    detectParams "scan.seq" (some (List.replicate 28 0))
      = .ok DetectResult.noMatch :=
  (detectParams_cases "scan.seq" (List.replicate 28 0)).2.1 (by decide)

/-- Fixture bytes of a complete, well formed 632 byte header: magic
0xFEED, name and description both the UTF-16LE text ab followed by a
double null terminator, version 5, width 4, height 4, bit depth 8,
image_size_bytes 16, image_format 100, true_image_size 16, every other
field zero. -/
def exampleHeaderBytes : List Nat :=
  [0xED, 0xFE, 0, 0]
  ++ ([97, 0, 98, 0] ++ List.replicate 20 0)
  ++ [5, 0, 0, 0]
  ++ [0, 0, 0, 0]
  ++ ([97, 0, 98, 0] ++ List.replicate 508 0)
  ++ [4, 0, 0, 0]
  ++ [4, 0, 0, 0]
  ++ [8, 0, 0, 0]
  ++ [8, 0, 0, 0]
  ++ [16, 0, 0, 0]
  ++ [100, 0, 0, 0]
  ++ [0, 0, 0, 0]
  ++ [0, 0, 0, 0]
  ++ [16, 0, 0, 0]
  ++ List.replicate 8 0
  ++ List.replicate 36 0
  ++ [0, 0]
  ++ [0, 0]

set_option maxRecDepth 8000 in
/-- Sanity check for the header codec: the fixture blob has exactly
HEADER_SIZE bytes and unpacks to the expected field values, so the
success hypotheses of the detection and initialization theorems are
satisfiable. -/
theorem exampleHeaderBytes_unpacks :
    exampleHeaderBytes.length = HEADER_SIZE
    ∧ unpackHeader exampleHeaderBytes = .ok { baseHeader with
      magic := 0xFEED, name := [97, 98], version := 5,
      description := [97, 98], width := 4, height := 4, bit_depth := 8,
      bit_depth_real := 8, image_size_bytes := 16, image_format := 100,
      true_image_size := 16, suggested_frame_rate := List.replicate 8 0 } := by
  exact ⟨by decide, by decide⟩

set_option maxRecDepth 8000 in
/-- Sanity check for detection: a file holding only the fixture header
(632 bytes, version 5, so image offset 8192 and a negative byte
remainder) is detected with the truncated frame count -472, exercising
the toward-zero truncation of the Python int() on a short file. -/
theorem exampleHeaderBytes_detected :
    detectParams "scan.seq" (some exampleHeaderBytes)
      = .ok (.params "scan.seq" (-472)) := by
  decide

end LiberTEM
